import Mathlib

/-!
Verification of the multi-architecture report engine of the audit repository
(pkg/reports/custom/multiarch_report.go), as a shallow embedding in Lean.

Go maps are modelled as association lists (`List (String × List α)`) built in
iteration order; Go map iteration order is unspecified, so every claim proved
here is stated in an order-insensitive way (membership, counts, key sets).
Go sets (`map[string]string` with key = value) are modelled as duplicate-free
`List String` built by insert-if-absent.  The external manifest-inspection
tool (`pkg.RunDockerManifestInspect`, outside this package) is modelled as an
oracle indexed by the attempt number, so that the retry policy of the callers
is observable; machine-level failure is an `Except.error` carrying the error
text.  The infrastructure annotation is modelled as the looked-up value
(`Option String`, `none` when the key is absent; a Go map lookup of a missing
key yields ""), since the key constant lives outside this package.
-/

set_option maxRecDepth 10000

namespace MultiArchAudit

/-- `strings.Contains s pat` of Go: some suffix of `s` starts with `pat`. -/
def listContainsSub (s pat : List Char) : Bool :=
  (List.range (s.length + 1)).any fun i => pat.isPrefixOf (s.drop i)

/-- Go `strings.Contains` on strings. -/
def strContains (s pat : String) : Bool :=
  listContainsSub s.data pat.data

/-- Go `strings.Split s "."`: the dot-separated fields of `s`, modelled
directly on the character list (Go's `Split` with a one-character separator). -/
def fieldsByDot : List Char → List (List Char)
  | [] => [[]]
  | c :: rest =>
    let r := fieldsByDot rest
    if c = '.' then [] :: r
    else (c :: r.headD []) :: r.tail

/-- Recursion core of `removeAllPat`.  The fuel argument only forces
structural recursion; every step consumes at least one character, so fuel
`s.length` never runs out and the `0` branch is reached only at `[]`. -/
def removeAllAux (pat : List Char) : Nat → List Char → List Char
  | _, [] => []
  | 0, s => s
  | Nat.succ f, c :: rest =>
    if pat.isPrefixOf (c :: rest) ∧ pat ≠ [] then
      removeAllAux pat f (rest.drop (pat.length - 1))
    else
      c :: removeAllAux pat f rest

/-- Go `strings.ReplaceAll s pat ""` for a non-empty `pat`: remove every
(non-overlapping, left-to-right) occurrence of `pat`. -/
def removeAllPat (pat s : List Char) : List Char :=
  removeAllAux pat s.length s

/-- `strings.ReplaceAll v "operatorframework.io/arch." ""` of `checkSupport`. -/
def stripArchLabel (v : String) : String :=
  String.mk (removeAllPat "operatorframework.io/arch.".data v.data)

/-- One (os, architecture) pair of a manifest list
(`manifest.Platform` in the Go source, with fields `SO`, `Architecture`). -/
structure Platform where
  SO : String
  Architecture : String
deriving DecidableEq

/-- Result payload of `pkg.RunDockerManifestInspect`: the manifest entries.
The Go related-image caller guards the loop with `ManifestData != nil`; a nil
slice and an empty slice behave identically under `range`, so a plain list is
an extensionally faithful model. -/
structure Manifest where
  ManifestData : List Platform
deriving DecidableEq

/-- The external Manifest Inspector, as an oracle: arguments are the image
reference, the container engine, and the attempt number (0 = first call,
1 = the retry); the result is the manifest or an error text. -/
abbrev Inspector := String → String → Nat → Except String Manifest

/-- A record of one call to the Manifest Inspector:
(image reference, engine, attempt number). -/
abbrev Call := String × String × Nat

/-- Flattened bundle record (`bundles.Column`), restricted to the fields the
multi-arch engine reads.  `DeploymentSpecs` holds, per deployment spec, the
`.Image` of each container
(`BundleCSV.Spec.InstallStrategy.StrategySpec.DeploymentSpecs[i].Spec.Template.Spec.Containers[j].Image`);
`RelatedImages` holds the `.Image` of each entry of
`BundleCSV.Spec.RelatedImages`; `BundleCSVName` is `BundleCSV.Name`;
`Labels` is `BundleCSV.ObjectMeta.Labels`; `InfraAnnotValue` is the value of
the well-known infrastructure annotation key in
`BundleCSV.ObjectMeta.Annotations` (`none` when absent). -/
structure Column where
  PackageName : String := ""
  IsHeadOfChannel : Bool := false
  AuditErrors : List String := []
  BundleCSVName : String := ""
  Labels : List (String × String) := []
  InfraAnnotValue : Option String := none
  DeploymentSpecs : List (List String) := []
  RelatedImages : List String := []
deriving DecidableEq

/-- The Go map lookup `Annotations[pkg.InfrastructureAnnotation]`:
"" when the key is absent. -/
def infraValue (c : Column) : String := c.InfraAnnotValue.getD ""

/-- `MultiArchBundle` of the Go source.  `RelateImages` / `InstallImages` are
the image-reference → platform-strings maps; `Supported` is the key set of the
Go `Supported` map (key = value there, so the key set carries all content).
The Go field `HasDisconnectAnnotation` is rendered `HasDisconnectAnnot`. -/
structure MultiArchBundle where
  HasDisconnectAnnot : Bool := false
  InfraLabels : List String := []
  RelateImages : List (String × List String) := []
  InstallImages : List (String × List String) := []
  BundleData : Column := {}
  Validations : List String := []
  Supported : List String := []
  HasMultArchSupport : Bool := false
deriving DecidableEq

def bundleName (mb : MultiArchBundle) : String := mb.BundleData.BundleCSVName

/-- Go map insertion `m[k] = append(m[k], v)` on the association-list model:
extend the entry of `k` if present, otherwise add a new entry. -/
def mapAppend {α : Type} : List (String × List α) → String → α → List (String × List α)
  | [], k, v => [(k, [v])]
  | (k', vs) :: rest, k, v =>
    if k' = k then (k', vs ++ [v]) :: rest
    else (k', vs) :: mapAppend rest k v

/-- Go set insertion `m[k] = k` on the key-set model: append if absent. -/
def setInsert (s : List String) (k : String) : List String :=
  if k ∈ s then s else s ++ [k]

/-- `fmt.Sprintf("%s.%s", p.SO, p.Architecture)`. -/
def platString (p : Platform) : String := p.SO ++ "." ++ p.Architecture

/-- The related-image failure message
`fmt.Sprintf("unable to inspect manifests for the image (%s) : %s", img, err)`. -/
def relFailMsg (image err : String) : String :=
  "unable to inspect manifests for the image (" ++ image ++ ") : " ++ err

/-- Digest finding for a related image (the Go source spells "releated"). -/
def shaRelMsg (name image : String) : String :=
  "[bundle " ++ name ++ "]: releated image (" ++ image ++ ") is not set using SHA"

/-- Digest finding for an install image. -/
def shaInstMsg (name image : String) : String :=
  "[bundle " ++ name ++ "]: install image (" ++ image ++ ") is not set using SHA"

/-- Coverage finding for a related image. -/
def covRelMsg (name image su : String) : String :=
  "[bundle " ++ name ++ "]: related image (" ++ image ++
    ") is missing manifest archetype for " ++ su

/-- Coverage finding for an install image. -/
def covInstMsg (name image su : String) : String :=
  "[bundle " ++ name ++ "]: install image (" ++ image ++
    ") is missing manifest archetype for " ++ su

/-- The disconnected-annotation finding.  Go renders the name with `%q`,
modelled as plain quote-wrapping (exact for names needing no escapes). -/
def discMsg (name : String) : String :=
  "found multiacrh support for the bundle (\"" ++ name ++ "\"), however " ++
    "it is missing the CSV disconnected annotation"

/-- Go `%q` of a string slice: space-separated quoted items in brackets. -/
def quoteList (ts : List String) : String :=
  "[" ++ String.intercalate " " (ts.map fun t => "\"" ++ t ++ "\"") ++ "]"

/-- The label-completeness finding. -/
def labelMsg (name : String) (ts : List String) : String :=
  "[bundle " ++ name ++ "]: missing label for " ++ quoteList ts

/-- `addInfraLabels`: record every label key containing "arch" whose value is
exactly "supported". -/
def addInfraLabels (mb : MultiArchBundle) : MultiArchBundle :=
  { mb with
    InfraLabels := mb.InfraLabels ++
      ((mb.BundleData.Labels.filter fun kv =>
        strContains kv.1 "arch" && kv.2 == "supported").map Prod.fst) }

/-- `addDisconnectAnnotationValue` of the Go source: set the flag when the
annotation value contains "Disconnected" or "disconnected". -/
def addDisconnectAnnotValue (mb : MultiArchBundle) : MultiArchBundle :=
  if strContains (infraValue mb.BundleData) "Disconnected"
      || strContains (infraValue mb.BundleData) "disconnected" then
    { mb with HasDisconnectAnnot := true }
  else mb

/-- `RunDockerManifestInspect` with the caller's retry: call attempt 0; on
error call attempt 1 with identical arguments and keep that result (the first
error is discarded by the Go code).  Also returns the calls made. -/
def inspectTwice (insp : Inspector) (image engine : String) :
    Except String Manifest × List Call :=
  match insp image engine 0 with
  | Except.ok m => (Except.ok m, [(image, engine, 0)])
  | Except.error _ => (insp image engine 1, [(image, engine, 0), (image, engine, 1)])

/-- Accumulator of one image-gathering loop: the platform map built so far,
the (image, terminal-error) pairs in order, and the inspector calls made. -/
structure ScanResult where
  imgMap : List (String × List String) := []
  fails : List (String × String) := []
  calls : List Call := []
deriving DecidableEq

/-- One loop iteration of `addDataFromInstallImages` / `addDataFromRelateImages`
for one image reference: on terminal failure record the failure, otherwise
append `"<os>.<arch>"` for every manifest entry to the image's platform list. -/
def scanStep (insp : Inspector) (engine : String) (r : ScanResult) (image : String) :
    ScanResult :=
  match inspectTwice insp image engine with
  | (Except.error e, tr) =>
    { r with fails := r.fails ++ [(image, e)], calls := r.calls ++ tr }
  | (Except.ok m, tr) =>
    { r with
      imgMap := m.ManifestData.foldl (fun mp p => mapAppend mp image (platString p)) r.imgMap,
      calls := r.calls ++ tr }

def scanImages (insp : Inspector) (engine : String) (images : List String) : ScanResult :=
  images.foldl (scanStep insp engine) {}

/-- `addDataFromInstallImages`: scan every container image of every deployment
spec; terminal failures append the (second) error text to the bundle's audit
errors and nothing else. -/
def addDataFromInstallImages (insp : Inspector) (engine : String)
    (mb : MultiArchBundle) : MultiArchBundle × List Call :=
  let r := scanImages insp engine mb.BundleData.DeploymentSpecs.flatten
  ({ mb with
      InstallImages := r.imgMap,
      BundleData := { mb.BundleData with
        AuditErrors := mb.BundleData.AuditErrors ++ r.fails.map Prod.snd } },
    r.calls)

/-- `addDataFromRelateImages`: same scan over the related images; terminal
failures additionally append a human-readable finding to the validations. -/
def addDataFromRelateImages (insp : Inspector) (engine : String)
    (mb : MultiArchBundle) : MultiArchBundle × List Call :=
  let r := scanImages insp engine mb.BundleData.RelatedImages
  ({ mb with
      RelateImages := r.imgMap,
      BundleData := { mb.BundleData with
        AuditErrors := mb.BundleData.AuditErrors ++ r.fails.map Prod.snd },
      Validations := mb.Validations ++ r.fails.map fun pr => relFailMsg pr.1 pr.2 },
    r.calls)

/-- `strings.Split(s, ".")[1]` under the guard `strings.Contains(s, ".")`,
else the whole string: the architecture token of one platform string. -/
def tokenOf (s : String) : String :=
  if strContains s "." then String.mk ((fieldsByDot s.data).getD 1 []) else s

/-- The platform-string loop body of `checkSupport` over one image's list. -/
def addPlatformTokens (supported : List String) (plats : List String) : List String :=
  plats.foldl (fun acc sop => if sop.length > 0 then setInsert acc (tokenOf sop) else acc)
    supported

/-- `checkSupport`: seed `Supported` from the stripped infra labels, then add
the token of every non-empty platform string of both image maps. -/
def checkSupport (mb : MultiArchBundle) : MultiArchBundle :=
  let s1 := mb.InfraLabels.foldl (fun acc v => setInsert acc (stripArchLabel v)) mb.Supported
  let s2 := mb.RelateImages.foldl (fun acc p => addPlatformTokens acc p.2) s1
  let s3 := mb.InstallImages.foldl (fun acc p => addPlatformTokens acc p.2) s2
  { mb with Supported := s3 }

/-- The related-image half of `checkSHA`'s output. -/
def shaRelFindings (mb : MultiArchBundle) : List String :=
  ((mb.RelateImages.map Prod.fst).filter fun i => !strContains i "@sha256").map
    (shaRelMsg (bundleName mb))

/-- The install-image half of `checkSHA`'s output. -/
def shaInstFindings (mb : MultiArchBundle) : List String :=
  ((mb.InstallImages.map Prod.fst).filter fun i => !strContains i "@sha256").map
    (shaInstMsg (bundleName mb))

/-- `checkSHA`: guarded by `HasMultArchSupport`; one finding per unpinned key
of each map, related map first. -/
def shaFindings (mb : MultiArchBundle) : List String :=
  if mb.HasMultArchSupport then shaRelFindings mb ++ shaInstFindings mb else []

/-- The supported tokens matched by no infra label (`notFoundLabel`). -/
def notFoundLabels (mb : MultiArchBundle) : List String :=
  mb.Supported.filter fun su => !(mb.InfraLabels.any fun infra => strContains infra su)

/-- `checkLabels`: guarded; a single finding listing every unmatched token,
emitted only when some token is unmatched. -/
def labelFindings (mb : MultiArchBundle) : List String :=
  if mb.HasMultArchSupport then
    if (notFoundLabels mb).length > 0 then [labelMsg (bundleName mb) (notFoundLabels mb)]
    else []
  else []

/-- `checkAnnotation` of the Go source: one finding when multi-arch support
was found but the disconnect annotation flag is false. -/
def discFindings (mb : MultiArchBundle) : List String :=
  if mb.HasMultArchSupport && !mb.HasDisconnectAnnot then [discMsg (bundleName mb)] else []

/-- The supported tokens contained in none of the image's platform strings. -/
def missingTokens (supported arc : List String) : List String :=
  supported.filter fun su => !(arc.any fun t => strContains t su)

/-- The related-image half of `checkMissingArchtype`'s output. -/
def covRelFindings (mb : MultiArchBundle) : List String :=
  (mb.RelateImages.map fun p =>
    (missingTokens mb.Supported p.2).map (covRelMsg (bundleName mb) p.1)).flatten

/-- The install-image half of `checkMissingArchtype`'s output. -/
def covInstFindings (mb : MultiArchBundle) : List String :=
  (mb.InstallImages.map fun p =>
    (missingTokens mb.Supported p.2).map (covInstMsg (bundleName mb) p.1)).flatten

/-- `checkMissingArchtype`: guarded; the full cross-product of (map entries ×
supported tokens), one finding per pair with no matching platform string. -/
def covFindings (mb : MultiArchBundle) : List String :=
  if mb.HasMultArchSupport then covRelFindings mb ++ covInstFindings mb else []

/-- `validate`: append the findings of the four checks in source order
(`checkSHA`, `checkLabels`, `checkAnnotation`, `checkMissingArchtype`). -/
def validate (mb : MultiArchBundle) : MultiArchBundle :=
  { mb with
    Validations := mb.Validations ++ shaFindings mb ++ labelFindings mb ++
      discFindings mb ++ covFindings mb }

/-- The extraction phase of the per-bundle loop body of `NewMultiArchReport`:
everything before `validate`, including setting `HasMultArchSupport` from
`len(mb.Supported) > 1`.  Also returns the inspector calls made. -/
def extractBundle (insp : Inspector) (engine : String) (c : Column) :
    MultiArchBundle × List Call :=
  let mb2 := addDisconnectAnnotValue (addInfraLabels { BundleData := c })
  let r3 := addDataFromInstallImages insp engine mb2
  let r4 := addDataFromRelateImages insp engine r3.1
  let mb5 := checkSupport r4.1
  let mb6 := if mb5.Supported.length > 1 then { mb5 with HasMultArchSupport := true } else mb5
  (mb6, r3.2 ++ r4.2)

/-- The full per-bundle pipeline of `NewMultiArchReport`: extraction then
validation. -/
def processBundle (insp : Inspector) (engine : String) (c : Column) :
    MultiArchBundle × List Call :=
  let r := extractBundle insp engine c
  (validate r.1, r.2)

/-- `mapHeadBundlesPerPackageWith`: group the head-of-channel records by
package name (association-list rendering of the Go map). -/
def mapHeadBundlesPerPackageWith (cols : List Column) : List (String × List Column) :=
  cols.foldl (fun m c => if c.IsHeadOfChannel then mapAppend m c.PackageName c else m) []

/-- The name filter of `NewMultiArchReport`: a bundle is retained when the
filter is empty or its package name contains the filter. -/
def passesFilter (filt : String) (c : Column) : Bool :=
  !(decide (filt.length > 0) && !strContains c.PackageName filt)

/-- The inner per-bundle step of `NewMultiArchReport`: skip filtered-out
bundles entirely (no inspector call), otherwise process and record. -/
def bundleStep (insp : Inspector) (engine filt pkgName : String)
    (acc : List (String × List MultiArchBundle) × List Call) (c : Column) :
    List (String × List MultiArchBundle) × List Call :=
  if passesFilter filt c then
    let r := processBundle insp engine c
    (mapAppend acc.1 pkgName r.1, acc.2 ++ r.2)
  else acc

/-- The outer per-package step of `NewMultiArchReport`. -/
def pkgStep (insp : Inspector) (engine filt : String)
    (acc : List (String × List MultiArchBundle) × List Call)
    (pr : String × List Column) :
    List (String × List MultiArchBundle) × List Call :=
  pr.2.foldl (bundleStep insp engine filt pr.1) acc

/-- `NewMultiArchReport`, restricted to its decision content: the package →
bundles map (the report's `Packages` are a verbatim copy of it; the identity
and timestamp fields are verbatim copies of the input) and the inspector
calls made. -/
def NewMultiArchReport (insp : Inspector) (engine filt : String) (cols : List Column) :
    List (String × List MultiArchBundle) × List Call :=
  (mapHeadBundlesPerPackageWith cols).foldl (pkgStep insp engine filt) ([], [])

/-! ## Helper lemmas -/

theorem mem_setInsert_self (s : List String) (k : String) : k ∈ setInsert s k := by
  unfold setInsert
  by_cases h : k ∈ s
  · simp [h]
  · simp [h]

theorem mem_setInsert_of_mem {s : List String} {a : String} (k : String)
    (h : a ∈ s) : a ∈ setInsert s k := by
  unfold setInsert
  by_cases hk : k ∈ s
  · simpa [hk]
  · simp [hk, List.mem_append, h]

theorem setInsert_nodup {s : List String} (k : String) (h : s.Nodup) :
    (setInsert s k).Nodup := by
  unfold setInsert
  by_cases hk : k ∈ s
  · simpa [hk]
  · simp [hk, List.nodup_append, h]

theorem addPlatformTokens_cons (s : List String) (x : String) (xs : List String) :
    addPlatformTokens s (x :: xs) =
      addPlatformTokens (if x.length > 0 then setInsert s (tokenOf x) else s) xs := rfl

theorem mem_addPlatformTokens_of_mem {s : List String} {a : String}
    (l : List String) (h : a ∈ s) : a ∈ addPlatformTokens s l := by
  induction l generalizing s with
  | nil => simpa [addPlatformTokens]
  | cons x xs ih =>
    rw [addPlatformTokens_cons]
    by_cases hx : x.length > 0
    · rw [if_pos hx]
      exact ih (mem_setInsert_of_mem _ h)
    · rw [if_neg hx]
      exact ih h

theorem tokenOf_mem_addPlatformTokens {l : List String} {sop : String}
    (s : List String) (hmem : sop ∈ l) (hne : sop.length > 0) :
    tokenOf sop ∈ addPlatformTokens s l := by
  induction l generalizing s with
  | nil => cases hmem
  | cons x xs ih =>
    rw [addPlatformTokens_cons]
    rcases List.mem_cons.mp hmem with hx | hxs
    · subst hx
      rw [if_pos hne]
      exact mem_addPlatformTokens_of_mem xs (mem_setInsert_self s (tokenOf sop))
    · exact ih _ hxs

theorem addPlatformTokens_nodup {s : List String} (l : List String) (h : s.Nodup) :
    (addPlatformTokens s l).Nodup := by
  induction l generalizing s with
  | nil => simpa [addPlatformTokens]
  | cons x xs ih =>
    rw [addPlatformTokens_cons]
    by_cases hx : x.length > 0
    · rw [if_pos hx]
      exact ih (setInsert_nodup _ h)
    · rw [if_neg hx]
      exact ih h

theorem keys_mapAppend {α : Type} (m : List (String × List α)) (k : String) (v : α) :
    (mapAppend m k v).map Prod.fst =
      if k ∈ m.map Prod.fst then m.map Prod.fst else m.map Prod.fst ++ [k] := by
  induction m with
  | nil => simp [mapAppend]
  | cons p rest ih =>
    obtain ⟨k1, vs⟩ := p
    by_cases hk : k1 = k
    · subst hk
      simp [mapAppend]
    · simp only [mapAppend, if_neg hk, List.map_cons]
      rw [ih]
      by_cases hmem : k ∈ rest.map Prod.fst
      · simp [hmem, Ne.symm hk]
      · simp [hmem, Ne.symm hk]

theorem mem_keys_mapAppend_iff {α : Type} (m : List (String × List α)) (k x : String)
    (v : α) : x ∈ (mapAppend m k v).map Prod.fst ↔ x ∈ m.map Prod.fst ∨ x = k := by
  rw [keys_mapAppend]
  by_cases hmem : k ∈ m.map Prod.fst
  · rw [if_pos hmem]
    constructor
    · exact Or.inl
    · rintro (h | h)
      · exact h
      · exact h ▸ hmem
  · rw [if_neg hmem]
    simp

theorem keys_mapAppend_nodup {α : Type} (m : List (String × List α)) (k : String)
    (v : α) (h : (m.map Prod.fst).Nodup) : ((mapAppend m k v).map Prod.fst).Nodup := by
  rw [keys_mapAppend]
  by_cases hmem : k ∈ m.map Prod.fst
  · simpa [hmem]
  · simpa [hmem, List.nodup_append] using h

/-- Every entry of `mapAppend m k v` satisfies an entry-wise predicate provided
all entries of `m` do and the inserted pair does. -/
theorem mapAppend_entries {α : Type} {Q : String → α → Prop}
    {m : List (String × List α)} {k : String} {v : α}
    (hm : ∀ p xs, (p, xs) ∈ m → ∀ x ∈ xs, Q p x) (hk : Q k v) :
    ∀ p xs, (p, xs) ∈ mapAppend m k v → ∀ x ∈ xs, Q p x := by
  induction m with
  | nil =>
    intro p xs hmem x hx
    simp only [mapAppend, List.mem_singleton, Prod.mk.injEq] at hmem
    obtain ⟨hp, hxs⟩ := hmem
    subst hp; subst hxs
    simp only [List.mem_singleton] at hx
    subst hx
    exact hk
  | cons q rest ih =>
    obtain ⟨k1, vs⟩ := q
    intro p xs hmem x hx
    by_cases hkk : k1 = k
    · subst hkk
      simp only [mapAppend, if_pos rfl] at hmem
      rcases List.mem_cons.mp hmem with heq | hrest
      · obtain ⟨hp, hxs⟩ := Prod.mk.injEq .. ▸ heq
        subst hp; subst hxs
        rcases List.mem_append.mp hx with hxv | hxv
        · exact hm _ vs (List.mem_cons_self _ _) x hxv
        · simp only [List.mem_singleton] at hxv
          subst hxv
          exact hk
      · exact hm p xs (List.mem_cons_of_mem _ hrest) x hx
    · simp only [mapAppend, if_neg hkk] at hmem
      rcases List.mem_cons.mp hmem with heq | hrest
      · obtain ⟨hp, hxs⟩ := Prod.mk.injEq .. ▸ heq
        subst hp; subst hxs
        exact hm _ _ (List.mem_cons_self _ _) x hx
      · exact ih (fun p' xs' hmem' => hm p' xs' (List.mem_cons_of_mem _ hmem')) p xs hrest x hx

/-- The terminal outcome of the retried inspection of one image:
`some (image, err)` when both attempts fail, `none` otherwise. -/
def terminalFail (insp : Inspector) (engine i : String) : Option (String × String) :=
  match (inspectTwice insp i engine).1 with
  | Except.error e => some (i, e)
  | Except.ok _ => none

theorem scanStep_calls (insp : Inspector) (engine : String) (r : ScanResult)
    (image : String) :
    (scanStep insp engine r image).calls = r.calls ++ (inspectTwice insp image engine).2 := by
  unfold scanStep
  rcases h : inspectTwice insp image engine with ⟨res, tr⟩
  cases res <;> simp

theorem scanStep_fails (insp : Inspector) (engine : String) (r : ScanResult)
    (image : String) :
    (scanStep insp engine r image).fails =
      r.fails ++ (terminalFail insp engine image).toList := by
  unfold scanStep terminalFail
  rcases h : inspectTwice insp image engine with ⟨res, tr⟩
  cases res <;> simp [h]

theorem foldScan_calls (insp : Inspector) (engine : String) (images : List String) :
    ∀ r : ScanResult, (images.foldl (scanStep insp engine) r).calls =
      r.calls ++ (images.map fun i => (inspectTwice insp i engine).2).flatten := by
  induction images with
  | nil => intro r; simp
  | cons i rest ih =>
    intro r
    simp only [List.foldl_cons, List.map_cons, List.flatten_cons]
    rw [ih, scanStep_calls, List.append_assoc]

theorem scanImages_calls (insp : Inspector) (engine : String) (images : List String) :
    (scanImages insp engine images).calls =
      (images.map fun i => (inspectTwice insp i engine).2).flatten := by
  unfold scanImages
  rw [foldScan_calls]
  rfl

theorem foldScan_fails (insp : Inspector) (engine : String) (images : List String) :
    ∀ r : ScanResult, (images.foldl (scanStep insp engine) r).fails =
      r.fails ++ images.filterMap (terminalFail insp engine) := by
  induction images with
  | nil => intro r; simp
  | cons i rest ih =>
    intro r
    simp only [List.foldl_cons]
    rw [ih, scanStep_fails, List.append_assoc]
    congr 1
    cases h : terminalFail insp engine i <;> simp [List.filterMap_cons, h]

theorem scanImages_fails (insp : Inspector) (engine : String) (images : List String) :
    (scanImages insp engine images).fails =
      images.filterMap (terminalFail insp engine) := by
  unfold scanImages
  rw [foldScan_fails]
  rfl

theorem keys_foldMapAppend_not_mem {α : Type} (l : List α) (f : α → String)
    (image x : String) :
    ∀ mp : List (String × List String), x ∉ mp.map Prod.fst → x ≠ image →
      x ∉ (l.foldl (fun mp a => mapAppend mp image (f a)) mp).map Prod.fst := by
  induction l with
  | nil => intro mp h _; simpa using h
  | cons a rest ih =>
    intro mp h hne
    simp only [List.foldl_cons]
    refine ih _ ?_ hne
    rw [mem_keys_mapAppend_iff]
    rintro (hmem | heq)
    · exact h hmem
    · exact hne heq

theorem keys_foldMapAppend_nodup {α : Type} (l : List α) (f : α → String)
    (image : String) :
    ∀ mp : List (String × List String), (mp.map Prod.fst).Nodup →
      ((l.foldl (fun mp a => mapAppend mp image (f a)) mp).map Prod.fst).Nodup := by
  induction l with
  | nil => intro mp h; simpa using h
  | cons a rest ih =>
    intro mp h
    simp only [List.foldl_cons]
    exact ih _ (keys_mapAppend_nodup _ _ _ h)

theorem scanStep_imgMap_keys_nodup (insp : Inspector) (engine : String)
    (r : ScanResult) (image : String)
    (h : (r.imgMap.map Prod.fst).Nodup) :
    ((scanStep insp engine r image).imgMap.map Prod.fst).Nodup := by
  unfold scanStep
  rcases hins : inspectTwice insp image engine with ⟨res, tr⟩
  cases res with
  | error e => simpa using h
  | ok m => simpa using keys_foldMapAppend_nodup m.ManifestData platString image r.imgMap h

theorem foldScan_imgMap_keys_nodup (insp : Inspector) (engine : String)
    (images : List String) :
    ∀ r : ScanResult, (r.imgMap.map Prod.fst).Nodup →
      ((images.foldl (scanStep insp engine) r).imgMap.map Prod.fst).Nodup := by
  induction images with
  | nil => intro r h; simpa using h
  | cons i rest ih =>
    intro r h
    simp only [List.foldl_cons]
    exact ih _ (scanStep_imgMap_keys_nodup insp engine r i h)

theorem scanImages_keys_nodup (insp : Inspector) (engine : String)
    (images : List String) :
    ((scanImages insp engine images).imgMap.map Prod.fst).Nodup := by
  unfold scanImages
  exact foldScan_imgMap_keys_nodup insp engine images _ (by simp)

/-- An image whose retried inspection fails never becomes a key of the map
built by the scan. -/
theorem scanImages_fail_not_key (insp : Inspector) (engine image : String)
    {e : String} (hfail : (inspectTwice insp image engine).1 = Except.error e)
    (images : List String) :
    image ∉ ((scanImages insp engine images).imgMap.map Prod.fst) := by
  unfold scanImages
  have main : ∀ r : ScanResult, image ∉ r.imgMap.map Prod.fst →
      image ∉ ((images.foldl (scanStep insp engine) r).imgMap.map Prod.fst) := by
    induction images with
    | nil => intro r h; simpa using h
    | cons i rest ih =>
      intro r h
      simp only [List.foldl_cons]
      refine ih _ ?_
      unfold scanStep
      rcases hins : inspectTwice insp i engine with ⟨res, tr⟩
      cases res with
      | error e2 => simpa using h
      | ok m =>
        have hne : image ≠ i := by
          rintro rfl
          rw [hins] at hfail
          cases hfail
        simpa using keys_foldMapAppend_not_mem m.ManifestData platString i image r.imgMap h hne
  exact main _ (by simp)

theorem foldAPT_of_mem {a : String} (m : List (String × List String))
    {s : List String} (h : a ∈ s) :
    a ∈ m.foldl (fun acc p => addPlatformTokens acc p.2) s := by
  induction m generalizing s with
  | nil => simpa using h
  | cons p rest ih =>
    simp only [List.foldl_cons]
    exact ih (mem_addPlatformTokens_of_mem _ h)

theorem foldAPT_token_mem {m : List (String × List String)} {i : String}
    {arc : List String} {sop : String} (s : List String)
    (hm : (i, arc) ∈ m) (hs : sop ∈ arc) (hlen : sop.length > 0) :
    tokenOf sop ∈ m.foldl (fun acc p => addPlatformTokens acc p.2) s := by
  induction m generalizing s with
  | nil => cases hm
  | cons p rest ih =>
    simp only [List.foldl_cons]
    rcases List.mem_cons.mp hm with heq | hrest
    · subst heq
      exact foldAPT_of_mem rest (tokenOf_mem_addPlatformTokens s hs hlen)
    · exact ih _ hrest

theorem foldAPT_nodup (m : List (String × List String)) {s : List String}
    (h : s.Nodup) : (m.foldl (fun acc p => addPlatformTokens acc p.2) s).Nodup := by
  induction m generalizing s with
  | nil => simpa using h
  | cons p rest ih =>
    simp only [List.foldl_cons]
    exact ih (addPlatformTokens_nodup _ h)

theorem foldSetInsert_nodup (l : List String) {s : List String} (h : s.Nodup) :
    (l.foldl (fun acc v => setInsert acc (stripArchLabel v)) s).Nodup := by
  induction l generalizing s with
  | nil => simpa using h
  | cons x xs ih =>
    simp only [List.foldl_cons]
    exact ih (setInsert_nodup _ h)

theorem checkSupport_Supported_nodup (mb : MultiArchBundle)
    (h : mb.Supported.Nodup) : (checkSupport mb).Supported.Nodup := by
  unfold checkSupport
  exact foldAPT_nodup _ (foldAPT_nodup _ (foldSetInsert_nodup _ h))

/-- A non-empty string has a positive (character) length. -/
theorem strLength_pos_of_ne {s : String} (h : s ≠ "") : s.length > 0 := by
  cases s with
  | mk data =>
    cases data with
    | nil => cases h rfl
    | cons c cs => simp [String.length]

theorem checkSupport_mem_relate {mb : MultiArchBundle} {i : String}
    {arc : List String} {sop : String}
    (hm : (i, arc) ∈ mb.RelateImages) (hs : sop ∈ arc) (hne : sop ≠ "") :
    tokenOf sop ∈ (checkSupport mb).Supported := by
  unfold checkSupport
  exact foldAPT_of_mem _ (foldAPT_token_mem _ hm hs (strLength_pos_of_ne hne))

theorem checkSupport_mem_install {mb : MultiArchBundle} {i : String}
    {arc : List String} {sop : String}
    (hm : (i, arc) ∈ mb.InstallImages) (hs : sop ∈ arc) (hne : sop ≠ "") :
    tokenOf sop ∈ (checkSupport mb).Supported := by
  unfold checkSupport
  exact foldAPT_token_mem _ hm hs (strLength_pos_of_ne hne)

/-- The infra labels recorded by `addInfraLabels` for a column. -/
def infraLabelsOf (c : Column) : List String :=
  (c.Labels.filter fun kv => strContains kv.1 "arch" && kv.2 == "supported").map Prod.fst

/-- The `Supported` set computed by `checkSupport` from the label list and the
two image maps. -/
def supportedOf (labels : List String) (rel inst : List (String × List String)) :
    List String :=
  inst.foldl (fun acc p => addPlatformTokens acc p.2)
    (rel.foldl (fun acc p => addPlatformTokens acc p.2)
      (labels.foldl (fun acc v => setInsert acc (stripArchLabel v)) []))

/-! ### Field characterizations of the per-bundle pipeline -/

theorem extract_InfraLabels (insp : Inspector) (engine : String) (c : Column) :
    (extractBundle insp engine c).1.InfraLabels = infraLabelsOf c := by
  unfold extractBundle addDataFromInstallImages addDataFromRelateImages checkSupport
    addDisconnectAnnotValue addInfraLabels infraLabelsOf
  split <;> (dsimp only; split <;> rfl)

theorem extract_Disc (insp : Inspector) (engine : String) (c : Column) :
    (extractBundle insp engine c).1.HasDisconnectAnnot =
      (strContains (infraValue c) "Disconnected"
        || strContains (infraValue c) "disconnected") := by
  unfold extractBundle addDataFromInstallImages addDataFromRelateImages checkSupport
    addDisconnectAnnotValue addInfraLabels
  split
  next h =>
    dsimp only
    split <;> exact h.symm
  next h =>
    simp only [Bool.not_eq_true] at h
    dsimp only
    split <;> exact h.symm

theorem extract_InstallImages (insp : Inspector) (engine : String) (c : Column) :
    (extractBundle insp engine c).1.InstallImages =
      (scanImages insp engine c.DeploymentSpecs.flatten).imgMap := by
  unfold extractBundle addDataFromInstallImages addDataFromRelateImages checkSupport
    addDisconnectAnnotValue addInfraLabels
  split <;> (dsimp only; split <;> rfl)

theorem extract_RelateImages (insp : Inspector) (engine : String) (c : Column) :
    (extractBundle insp engine c).1.RelateImages =
      (scanImages insp engine c.RelatedImages).imgMap := by
  unfold extractBundle addDataFromInstallImages addDataFromRelateImages checkSupport
    addDisconnectAnnotValue addInfraLabels
  split <;> (dsimp only; split <;> rfl)

theorem extract_AuditErrors (insp : Inspector) (engine : String) (c : Column) :
    (extractBundle insp engine c).1.BundleData.AuditErrors =
      c.AuditErrors
        ++ (scanImages insp engine c.DeploymentSpecs.flatten).fails.map Prod.snd
        ++ (scanImages insp engine c.RelatedImages).fails.map Prod.snd := by
  unfold extractBundle addDataFromInstallImages addDataFromRelateImages checkSupport
    addDisconnectAnnotValue addInfraLabels
  split <;> (dsimp only; split <;> rfl)

theorem extract_Validations (insp : Inspector) (engine : String) (c : Column) :
    (extractBundle insp engine c).1.Validations =
      (scanImages insp engine c.RelatedImages).fails.map
        (fun pr => relFailMsg pr.1 pr.2) := by
  unfold extractBundle addDataFromInstallImages addDataFromRelateImages checkSupport
    addDisconnectAnnotValue addInfraLabels
  split <;> (dsimp only; split <;> rfl)

theorem extract_Supported (insp : Inspector) (engine : String) (c : Column) :
    (extractBundle insp engine c).1.Supported =
      supportedOf (infraLabelsOf c)
        (scanImages insp engine c.RelatedImages).imgMap
        (scanImages insp engine c.DeploymentSpecs.flatten).imgMap := by
  unfold extractBundle addDataFromInstallImages addDataFromRelateImages checkSupport
    addDisconnectAnnotValue addInfraLabels supportedOf infraLabelsOf
  split <;> (dsimp only; split <;> rfl)

theorem extract_Flag (insp : Inspector) (engine : String) (c : Column) :
    (extractBundle insp engine c).1.HasMultArchSupport =
      decide ((extractBundle insp engine c).1.Supported.length > 1) := by
  unfold extractBundle addDataFromInstallImages addDataFromRelateImages checkSupport
    addDisconnectAnnotValue addInfraLabels
  split
  all_goals
    dsimp only
    split
    all_goals simp_all

theorem extract_PackageName (insp : Inspector) (engine : String) (c : Column) :
    (extractBundle insp engine c).1.BundleData.PackageName = c.PackageName := by
  unfold extractBundle addDataFromInstallImages addDataFromRelateImages checkSupport
    addDisconnectAnnotValue addInfraLabels
  split <;> (dsimp only; split <;> rfl)

theorem extract_IsHead (insp : Inspector) (engine : String) (c : Column) :
    (extractBundle insp engine c).1.BundleData.IsHeadOfChannel = c.IsHeadOfChannel := by
  unfold extractBundle addDataFromInstallImages addDataFromRelateImages checkSupport
    addDisconnectAnnotValue addInfraLabels
  split <;> (dsimp only; split <;> rfl)

theorem extract_Name (insp : Inspector) (engine : String) (c : Column) :
    bundleName (extractBundle insp engine c).1 = c.BundleCSVName := by
  unfold bundleName extractBundle addDataFromInstallImages addDataFromRelateImages
    checkSupport addDisconnectAnnotValue addInfraLabels
  split <;> (dsimp only; split <;> rfl)

theorem extract_calls (insp : Inspector) (engine : String) (c : Column) :
    (extractBundle insp engine c).2 =
      (scanImages insp engine c.DeploymentSpecs.flatten).calls
        ++ (scanImages insp engine c.RelatedImages).calls := by
  unfold extractBundle addDataFromInstallImages addDataFromRelateImages checkSupport
    addDisconnectAnnotValue addInfraLabels
  split <;> rfl

theorem validate_Validations (mb : MultiArchBundle) :
    (validate mb).Validations =
      mb.Validations ++ shaFindings mb ++ labelFindings mb
        ++ discFindings mb ++ covFindings mb := rfl

theorem validate_keeps (mb : MultiArchBundle) :
    (validate mb).HasMultArchSupport = mb.HasMultArchSupport
      ∧ (validate mb).Supported = mb.Supported
      ∧ (validate mb).RelateImages = mb.RelateImages
      ∧ (validate mb).InstallImages = mb.InstallImages
      ∧ (validate mb).InfraLabels = mb.InfraLabels
      ∧ (validate mb).BundleData = mb.BundleData
      ∧ (validate mb).HasDisconnectAnnot = mb.HasDisconnectAnnot
      ∧ bundleName (validate mb) = bundleName mb :=
  ⟨rfl, rfl, rfl, rfl, rfl, rfl, rfl, rfl⟩

theorem processBundle_fst (insp : Inspector) (engine : String) (c : Column) :
    (processBundle insp engine c).1 = validate (extractBundle insp engine c).1 := rfl

theorem processBundle_snd (insp : Inspector) (engine : String) (c : Column) :
    (processBundle insp engine c).2 = (extractBundle insp engine c).2 := rfl

theorem shaFindings_of_not_flag {mb : MultiArchBundle}
    (h : mb.HasMultArchSupport = false) : shaFindings mb = [] := by
  unfold shaFindings
  simp [h]

theorem labelFindings_of_not_flag {mb : MultiArchBundle}
    (h : mb.HasMultArchSupport = false) : labelFindings mb = [] := by
  unfold labelFindings
  simp [h]

theorem discFindings_of_not_flag {mb : MultiArchBundle}
    (h : mb.HasMultArchSupport = false) : discFindings mb = [] := by
  unfold discFindings
  simp [h]

theorem covFindings_of_not_flag {mb : MultiArchBundle}
    (h : mb.HasMultArchSupport = false) : covFindings mb = [] := by
  unfold covFindings
  simp [h]

/-- When the bundle has no multi-arch support, the four checks contribute
nothing and `validate` is the identity. -/
theorem validate_of_not_flag {mb : MultiArchBundle}
    (h : mb.HasMultArchSupport = false) : validate mb = mb := by
  unfold validate
  rw [shaFindings_of_not_flag h, labelFindings_of_not_flag h,
    discFindings_of_not_flag h, covFindings_of_not_flag h]
  simp

/-! ### String-message injectivity and duplicate-freeness facts -/

theorem strData_inj {a b : String} (h : a.data = b.data) : a = b := by
  cases a
  cases b
  exact congrArg String.mk h

theorem strAppend_inj (s t : String) {a b : String}
    (h : s ++ a ++ t = s ++ b ++ t) : a = b := by
  have hd := congrArg String.data h
  simp only [String.data_append] at hd
  exact strData_inj (List.append_cancel_left (List.append_cancel_right hd))

theorem strAppend_left_inj (s : String) {a b : String} (h : s ++ a = s ++ b) : a = b := by
  have hd := congrArg String.data h
  simp only [String.data_append] at hd
  exact strData_inj (List.append_cancel_left hd)

theorem shaRelMsg_inj (n : String) : Function.Injective (shaRelMsg n) := by
  intro a b h
  exact strAppend_inj ("[bundle " ++ n ++ "]: releated image (")
    ") is not set using SHA" h

theorem shaInstMsg_inj (n : String) : Function.Injective (shaInstMsg n) := by
  intro a b h
  exact strAppend_inj ("[bundle " ++ n ++ "]: install image (")
    ") is not set using SHA" h

theorem covRelMsg_inj (n i : String) : Function.Injective (covRelMsg n i) := by
  intro a b h
  exact strAppend_left_inj
    ("[bundle " ++ n ++ "]: related image (" ++ i ++ ") is missing manifest archetype for ") h

theorem covInstMsg_inj (n i : String) : Function.Injective (covInstMsg n i) := by
  intro a b h
  exact strAppend_left_inj
    ("[bundle " ++ n ++ "]: install image (" ++ i ++ ") is missing manifest archetype for ") h

theorem supportedOf_nodup (labels : List String) (rel inst : List (String × List String)) :
    (supportedOf labels rel inst).Nodup := by
  unfold supportedOf
  exact foldAPT_nodup _ (foldAPT_nodup _ (foldSetInsert_nodup _ List.nodup_nil))

theorem processBundle_Supported_nodup (insp : Inspector) (engine : String) (c : Column) :
    (processBundle insp engine c).1.Supported.Nodup := by
  rw [processBundle_fst, (validate_keeps _).2.1, extract_Supported]
  exact supportedOf_nodup _ _ _

theorem processBundle_relKeys_nodup (insp : Inspector) (engine : String) (c : Column) :
    ((processBundle insp engine c).1.RelateImages.map Prod.fst).Nodup := by
  rw [processBundle_fst, (validate_keeps _).2.2.1, extract_RelateImages]
  exact scanImages_keys_nodup insp engine _

theorem processBundle_instKeys_nodup (insp : Inspector) (engine : String) (c : Column) :
    ((processBundle insp engine c).1.InstallImages.map Prod.fst).Nodup := by
  rw [processBundle_fst, (validate_keeps _).2.2.2.1, extract_InstallImages]
  exact scanImages_keys_nodup insp engine _

/-! ### Concrete fixtures for witnesses and counterexamples -/

/-- An inspector stub whose every call fails. -/
def failInsp : Inspector := fun _ _ _ => Except.error "boom"

/-- An inspector stub that always reports the single platform linux/amd64. -/
def amdInsp : Inspector := fun _ _ _ => Except.ok ⟨[⟨"linux", "amd64"⟩]⟩

/-- Two arch labels, one install image, no related images. -/
def colTwoLabels : Column :=
  { PackageName := "p", IsHeadOfChannel := true, BundleCSVName := "b",
    Labels := [("operatorframework.io/arch.amd64", "supported"),
               ("operatorframework.io/arch.s390x", "supported")],
    DeploymentSpecs := [["img"]] }

/-- Two arch labels, the same unpinned image as install and related image. -/
def colBothMaps : Column :=
  { PackageName := "p", IsHeadOfChannel := true, BundleCSVName := "b",
    Labels := [("operatorframework.io/arch.amd64", "supported"),
               ("operatorframework.io/arch.s390x", "supported")],
    DeploymentSpecs := [["img"]], RelatedImages := ["img"] }

/-- One related image only; no labels. -/
def colOneRelated : Column :=
  { PackageName := "p", IsHeadOfChannel := true, BundleCSVName := "b",
    RelatedImages := ["img"] }

/-- One arch label only (at most one supported token). -/
def colOneLabel : Column :=
  { PackageName := "p", IsHeadOfChannel := true, BundleCSVName := "b",
    Labels := [("operatorframework.io/arch.amd64", "supported")],
    DeploymentSpecs := [["img"]], RelatedImages := ["img"] }

/-! ### Claims -/

/-- Spec-side reading for claim C2 ("case-insensitive matching"), stated in
the claim's words for comparison with the source behaviour: containment after
ASCII lower-casing of both strings. -/
def lowerAscii (s : String) : String :=
  String.mk (s.data.map fun ch =>
    if 'A' ≤ ch ∧ ch ≤ 'Z' then Char.ofNat (ch.toNat + 32) else ch)

/-- Spec-side reading for claim C2: case-insensitive substring containment. -/
def strContainsCI (s pat : String) : Bool :=
  strContains (lowerAscii s) (lowerAscii pat)

/-- Claim C2, counterexample to the claim as stated: the annotation value
"DISCONNECTED" contains "disconnected" under case-insensitive matching, yet
the code leaves the disconnect flag false (it only checks the two spellings
"Disconnected" and "disconnected" case-sensitively). -/
theorem C2_cex :
    strContainsCI "DISCONNECTED" "disconnected" = true
    ∧ (processBundle failInsp "docker"
        { InfraAnnotValue := some "DISCONNECTED" }).1.HasDisconnectAnnot = false := by
  constructor
  · decide
  · decide

/-- Claim C2 (amended): the disconnect flag is true iff the infrastructure
annotation value contains "Disconnected" or "disconnected" as a case-sensitive
substring; absence of the annotation (a lookup yielding "") leaves it false. -/
theorem C2_amended (insp : Inspector) (engine : String) (c : Column) :
    (processBundle insp engine c).1.HasDisconnectAnnot =
      (strContains (infraValue c) "Disconnected"
        || strContains (infraValue c) "disconnected")
    ∧ (c.InfraAnnotValue = none →
        (processBundle insp engine c).1.HasDisconnectAnnot = false) := by
  have h1 : (processBundle insp engine c).1.HasDisconnectAnnot =
      (strContains (infraValue c) "Disconnected"
        || strContains (infraValue c) "disconnected") := by
    rw [processBundle_fst, (validate_keeps _).2.2.2.2.2.2.1, extract_Disc]
  refine ⟨h1, fun hnone => ?_⟩
  rw [h1]
  unfold infraValue
  rw [hnone]
  decide

/-- Witness for C2: a column with no annotation ends with the flag false. -/
theorem C2_amended_witness :
    ({} : Column).InfraAnnotValue = none
    ∧ (processBundle failInsp "docker" {}).1.HasDisconnectAnnot = false :=
  ⟨rfl, (C2_amended failInsp "docker" {}).2 rfl⟩

/-- The claim C3 token, in the claim's words: the substring after the FIRST
".", for comparison with the source's `tokenOf`. -/
def afterFirstDot : List Char → List Char
  | [] => []
  | c :: rest => if c = '.' then rest else afterFirstDot rest

/-- The claim C3 token on strings. -/
def specToken (s : String) : String :=
  if strContains s "." then String.mk (afterFirstDot s.data) else s

/-- A bundle with a recorded platform string holding two dots. -/
def mbTwoDots : MultiArchBundle :=
  { RelateImages := [("img", ["linux.amd64.v8"])] }

/-- Claim C3, counterexample to the claim as stated: for the recorded platform
string "linux.amd64.v8" the substring after the first "." is "amd64.v8", but
the code inserts `strings.Split(s, ".")[1]` = "amd64"; "amd64.v8" is not in
`Supported`. -/
theorem C3_cex :
    specToken "linux.amd64.v8" = "amd64.v8"
    ∧ ("img", ["linux.amd64.v8"]) ∈ mbTwoDots.RelateImages
    ∧ (checkSupport mbTwoDots).Supported = ["amd64"]
    ∧ "amd64.v8" ∉ (checkSupport mbTwoDots).Supported := by
  refine ⟨by decide, by decide, by decide, by decide⟩

/-- Claim C3 (amended): for every non-empty platform string recorded under
either image map, the token inserted into `Supported` is the SECOND
dot-separated field (`Split(s, ".")[1]`) when the string contains a ".", and
the whole string otherwise; empty platform strings are skipped; duplicates
collapse (`Supported` stays duplicate-free). -/
theorem C3_amended (mb : MultiArchBundle) :
    (∀ i arc sop, (i, arc) ∈ mb.RelateImages → sop ∈ arc → sop ≠ "" →
        tokenOf sop ∈ (checkSupport mb).Supported)
    ∧ (∀ i arc sop, (i, arc) ∈ mb.InstallImages → sop ∈ arc → sop ≠ "" →
        tokenOf sop ∈ (checkSupport mb).Supported)
    ∧ (mb.Supported.Nodup → (checkSupport mb).Supported.Nodup) := by
  refine ⟨?_, ?_, checkSupport_Supported_nodup mb⟩
  · intro i arc sop hm hs hne
    exact checkSupport_mem_relate hm hs hne
  · intro i arc sop hm hs hne
    exact checkSupport_mem_install hm hs hne

/-- Witness for C3: the token of "linux.amd64.v8" ("amd64") lands in
`Supported`, and the result is duplicate-free. -/
theorem C3_amended_witness :
    tokenOf "linux.amd64.v8" ∈ (checkSupport mbTwoDots).Supported
    ∧ (checkSupport mbTwoDots).Supported.Nodup :=
  ⟨(C3_amended mbTwoDots).1 "img" ["linux.amd64.v8"] "linux.amd64.v8"
      (by decide) (by decide) (by decide),
    (C3_amended mbTwoDots).2.2 (by decide)⟩

/-- Claim C4: `HasMultArchSupport` equals `|Supported| > 1`, and when
`Supported` has at most one token all four validator checks contribute zero
findings, whatever the other fields hold, so `validate` leaves the bundle's
findings unchanged. -/
theorem C4_flag (insp : Inspector) (engine : String) (c : Column) :
    ((processBundle insp engine c).1.HasMultArchSupport =
        decide ((processBundle insp engine c).1.Supported.length > 1))
    ∧ ((processBundle insp engine c).1.Supported.length ≤ 1 →
        shaFindings (extractBundle insp engine c).1 = []
        ∧ labelFindings (extractBundle insp engine c).1 = []
        ∧ discFindings (extractBundle insp engine c).1 = []
        ∧ covFindings (extractBundle insp engine c).1 = []
        ∧ (processBundle insp engine c).1.Validations =
            (extractBundle insp engine c).1.Validations) := by
  have hsup : (processBundle insp engine c).1.Supported =
      (extractBundle insp engine c).1.Supported := (validate_keeps _).2.1
  have hflag : (processBundle insp engine c).1.HasMultArchSupport =
      (extractBundle insp engine c).1.HasMultArchSupport := (validate_keeps _).1
  constructor
  · rw [hflag, hsup]
    exact extract_Flag insp engine c
  · intro hle
    rw [hsup] at hle
    have hfalse : (extractBundle insp engine c).1.HasMultArchSupport = false := by
      rw [extract_Flag]
      simp only [decide_eq_false_iff_not]
      omega
    refine ⟨shaFindings_of_not_flag hfalse, labelFindings_of_not_flag hfalse,
      discFindings_of_not_flag hfalse, covFindings_of_not_flag hfalse, ?_⟩
    rw [processBundle_fst, validate_of_not_flag hfalse]

/-- Witness for C4: a bundle with a single supported token has the flag false
and gains no validation findings. -/
theorem C4_flag_witness :
    (processBundle amdInsp "docker" colOneLabel).1.Supported.length ≤ 1
    ∧ (processBundle amdInsp "docker" colOneLabel).1.HasMultArchSupport = false
    ∧ (processBundle amdInsp "docker" colOneLabel).1.Validations =
        (extractBundle amdInsp "docker" colOneLabel).1.Validations := by
  have h := C4_flag amdInsp "docker" colOneLabel
  refine ⟨by decide, by decide, (h.2 (by decide)).2.2.2.2⟩

theorem inspectTwice_of_fails {insp : Inspector} {image engine e0 e1 : String}
    (h0 : insp image engine 0 = Except.error e0)
    (h1 : insp image engine 1 = Except.error e1) :
    inspectTwice insp image engine =
      (Except.error e1, [(image, engine, 0), (image, engine, 1)]) := by
  unfold inspectTwice
  rw [h0]
  dsimp only
  rw [h1]

theorem terminalFail_of_fails {insp : Inspector} {image engine e0 e1 : String}
    (h0 : insp image engine 0 = Except.error e0)
    (h1 : insp image engine 1 = Except.error e1) :
    terminalFail insp engine image = some (image, e1) := by
  unfold terminalFail
  rw [inspectTwice_of_fails h0 h1]

/-- Claim C7: an inspection is retried exactly once with identical arguments
(one call when the first attempt succeeds, the two identical-argument attempts
otherwise); a terminal install-image failure appends only to the audit-error
log (never to the findings), while a terminal related-image failure appends
to the error log and additionally appends a human-readable finding. -/
theorem C7_retry (insp : Inspector) (engine image e0 e1 : String)
    (mb : MultiArchBundle)
    (h0 : insp image engine 0 = Except.error e0)
    (h1 : insp image engine 1 = Except.error e1) :
    (∀ i en : String, (inspectTwice insp i en).2 =
        match insp i en 0 with
        | Except.ok _ => [(i, en, 0)]
        | Except.error _ => [(i, en, 0), (i, en, 1)])
    ∧ (∀ mb2 : MultiArchBundle,
        (addDataFromInstallImages insp engine mb2).1.Validations = mb2.Validations)
    ∧ (mb.BundleData.DeploymentSpecs.flatten = [image] →
        (addDataFromInstallImages insp engine mb).1.BundleData.AuditErrors
            = mb.BundleData.AuditErrors ++ [e1]
        ∧ (addDataFromInstallImages insp engine mb).2
            = [(image, engine, 0), (image, engine, 1)])
    ∧ (mb.BundleData.RelatedImages = [image] →
        (addDataFromRelateImages insp engine mb).1.BundleData.AuditErrors
            = mb.BundleData.AuditErrors ++ [e1]
        ∧ (addDataFromRelateImages insp engine mb).1.Validations
            = mb.Validations ++ [relFailMsg image e1]
        ∧ (addDataFromRelateImages insp engine mb).2
            = [(image, engine, 0), (image, engine, 1)]) := by
  have hscan : scanImages insp engine [image] =
      { imgMap := [], fails := [(image, e1)],
        calls := [(image, engine, 0), (image, engine, 1)] } := by
    unfold scanImages scanStep
    rw [List.foldl_cons, List.foldl_nil, inspectTwice_of_fails h0 h1]
    rfl
  refine ⟨?_, fun _ => rfl, ?_, ?_⟩
  · intro i en
    unfold inspectTwice
    cases hins : insp i en 0 <;> rfl
  · intro hflat
    unfold addDataFromInstallImages
    rw [hflat, hscan]
    exact ⟨rfl, rfl⟩
  · intro hrel
    unfold addDataFromRelateImages
    rw [hrel, hscan]
    exact ⟨rfl, rfl, rfl⟩

/-- Witness for C7: the always-failing inspector on a bundle with install
image "img" and related image "rel". -/
theorem C7_retry_witness :
    ((addDataFromInstallImages failInsp "docker"
        { BundleData := { DeploymentSpecs := [["img"]] } }).1.BundleData.AuditErrors
      = ["boom"])
    ∧ ((addDataFromRelateImages failInsp "docker"
        { BundleData := { RelatedImages := ["img"] } }).1.Validations
      = [relFailMsg "img" "boom"]) := by
  have h1 := C7_retry failInsp "docker" "img" "boom" "boom"
    { BundleData := { DeploymentSpecs := [["img"]] } } rfl rfl
  have h2 := C7_retry failInsp "docker" "img" "boom" "boom"
    { BundleData := { RelatedImages := ["img"] } } rfl rfl
  exact ⟨(h1.2.2.1 (by decide)).1, (h2.2.2.2 (by decide)).2.1⟩

/-- Claim C10: the finding for a terminally failing related image is appended
during extraction, before `HasMultArchSupport` is computed and with no
dependence on it, so it is present in the validations even when `Supported`
has at most one token. -/
theorem C10_extraction_finding (insp : Inspector) (engine image e0 e1 : String)
    (c : Column)
    (h0 : insp image engine 0 = Except.error e0)
    (h1 : insp image engine 1 = Except.error e1)
    (himg : image ∈ c.RelatedImages) :
    relFailMsg image e1 ∈ (extractBundle insp engine c).1.Validations
    ∧ relFailMsg image e1 ∈ (processBundle insp engine c).1.Validations
    ∧ (processBundle insp engine c).1.Validations ≠ [] := by
  have hmem : relFailMsg image e1 ∈ (extractBundle insp engine c).1.Validations := by
    rw [extract_Validations, scanImages_fails]
    exact List.mem_map.mpr ⟨(image, e1),
      List.mem_filterMap.mpr ⟨image, himg, terminalFail_of_fails h0 h1⟩, rfl⟩
  have hmem2 : relFailMsg image e1 ∈ (processBundle insp engine c).1.Validations := by
    rw [processBundle_fst, validate_Validations]
    exact List.mem_append_left _ (List.mem_append_left _ (List.mem_append_left _
      (List.mem_append_left _ hmem)))
  exact ⟨hmem, hmem2, List.ne_nil_of_mem hmem2⟩

/-- Witness for C10: a bundle with a single failing related image and no
labels has no multi-arch support yet ends the audit with a non-empty
validation list. -/
theorem C10_extraction_finding_witness :
    (processBundle failInsp "docker" colOneRelated).1.HasMultArchSupport = false
    ∧ relFailMsg "img" "boom" ∈ (processBundle failInsp "docker" colOneRelated).1.Validations
    ∧ (processBundle failInsp "docker" colOneRelated).1.Validations ≠ [] := by
  have h := C10_extraction_finding failInsp "docker" "img" "boom" "boom"
    colOneRelated rfl rfl (by decide)
  exact ⟨by decide, h.2.1, h.2.2⟩

theorem scanImages_single_fail {insp : Inspector} {image engine e0 e1 : String}
    (h0 : insp image engine 0 = Except.error e0)
    (h1 : insp image engine 1 = Except.error e1) :
    scanImages insp engine [image] =
      { imgMap := [], fails := [(image, e1)],
        calls := [(image, engine, 0), (image, engine, 1)] } := by
  unfold scanImages scanStep
  rw [List.foldl_cons, List.foldl_nil, inspectTwice_of_fails h0 h1]
  rfl

theorem scanImages_nil (insp : Inspector) (engine : String) :
    scanImages insp engine [] = {} := rfl

/-- Claim C1, counterexample to the claim as stated: both inspection attempts
fail for the sole install image of a bundle with two supported tokens; the
error log gains its entry and multi-arch support holds, yet the coverage
check emits no missing-archetype finding at all for that image (the claim
demands one per supported token). -/
theorem C1_cex :
    (processBundle failInsp "docker" colTwoLabels).1.HasMultArchSupport = true
    ∧ (processBundle failInsp "docker" colTwoLabels).1.Supported = ["amd64", "s390x"]
    ∧ (processBundle failInsp "docker" colTwoLabels).1.BundleData.AuditErrors = ["boom"]
    ∧ (processBundle failInsp "docker" colTwoLabels).1.InstallImages = []
    ∧ covFindings (processBundle failInsp "docker" colTwoLabels).1 = []
    ∧ covInstMsg "b" "img" "amd64" ∉
        (processBundle failInsp "docker" colTwoLabels).1.Validations := by
  refine ⟨by decide, by decide, by decide, by decide, by decide, by decide⟩

/-- Claim C1 (amended): when the inspector fails on both attempts for the
(sole) install image of a bundle with no related images, the audit-error log
gains exactly one entry (the second attempt's error), the audit completes (the
pipeline is a total function), the image never becomes a key of the
install-image map — no empty platform list is recorded — and the coverage
check, iterating only over recorded keys, emits no finding. -/
theorem C1_amended (insp : Inspector) (engine image e0 e1 : String) (c : Column)
    (h0 : insp image engine 0 = Except.error e0)
    (h1 : insp image engine 1 = Except.error e1)
    (hflat : c.DeploymentSpecs.flatten = [image])
    (hrel : c.RelatedImages = []) :
    (processBundle insp engine c).1.BundleData.AuditErrors = c.AuditErrors ++ [e1]
    ∧ (processBundle insp engine c).1.InstallImages = []
    ∧ image ∉ ((processBundle insp engine c).1.InstallImages.map Prod.fst)
    ∧ covFindings (processBundle insp engine c).1 = [] := by
  have hBD : (processBundle insp engine c).1.BundleData =
      (extractBundle insp engine c).1.BundleData := (validate_keeps _).2.2.2.2.2.1
  have hInst : (processBundle insp engine c).1.InstallImages = [] := by
    rw [processBundle_fst, (validate_keeps _).2.2.2.1, extract_InstallImages, hflat,
      scanImages_single_fail h0 h1]
  have hRel : (processBundle insp engine c).1.RelateImages = [] := by
    rw [processBundle_fst, (validate_keeps _).2.2.1, extract_RelateImages, hrel,
      scanImages_nil]
  refine ⟨?_, hInst, ?_, ?_⟩
  · rw [hBD, extract_AuditErrors, hflat, hrel, scanImages_single_fail h0 h1,
      scanImages_nil]
    simp
  · rw [hInst]
    simp
  · unfold covFindings covRelFindings covInstFindings
    rw [hInst, hRel]
    simp

/-- Witness for C1: the always-failing inspector on the two-label bundle. -/
theorem C1_amended_witness :
    (processBundle failInsp "docker" colTwoLabels).1.BundleData.AuditErrors = ["boom"]
    ∧ (processBundle failInsp "docker" colTwoLabels).1.InstallImages = []
    ∧ covFindings (processBundle failInsp "docker" colTwoLabels).1 = [] := by
  have h := C1_amended failInsp "docker" "img" "boom" "boom" colTwoLabels rfl rfl
    (by decide) (by decide)
  exact ⟨by simpa using h.1, h.2.1, h.2.2.2⟩

/-- Every digest-pinning finding is generated from a key of one of the image
maps. -/
theorem shaFindings_shape (mb : MultiArchBundle) :
    ∀ f ∈ shaFindings mb,
      ∃ img, (img ∈ mb.RelateImages.map Prod.fst ∧ f = shaRelMsg (bundleName mb) img)
        ∨ (img ∈ mb.InstallImages.map Prod.fst ∧ f = shaInstMsg (bundleName mb) img) := by
  intro f hf
  unfold shaFindings shaRelFindings shaInstFindings at hf
  by_cases hflag : mb.HasMultArchSupport
  · rw [if_pos hflag] at hf
    rcases List.mem_append.mp hf with hr | hi
    · obtain ⟨img, himg, heq⟩ := List.mem_map.mp hr
      exact ⟨img, Or.inl ⟨List.mem_of_mem_filter himg, heq.symm⟩⟩
    · obtain ⟨img, himg, heq⟩ := List.mem_map.mp hi
      exact ⟨img, Or.inr ⟨List.mem_of_mem_filter himg, heq.symm⟩⟩
  · rw [if_neg hflag] at hf
    cases hf

/-- Every coverage finding is generated from a key of one of the image maps
and a supported token. -/
theorem covFindings_shape (mb : MultiArchBundle) :
    ∀ f ∈ covFindings mb,
      ∃ img su,
        (img ∈ mb.RelateImages.map Prod.fst ∧ f = covRelMsg (bundleName mb) img su)
        ∨ (img ∈ mb.InstallImages.map Prod.fst ∧ f = covInstMsg (bundleName mb) img su) := by
  intro f hf
  unfold covFindings covRelFindings covInstFindings at hf
  by_cases hflag : mb.HasMultArchSupport
  · rw [if_pos hflag] at hf
    rcases List.mem_append.mp hf with hr | hi
    · obtain ⟨blk, hblk, hfb⟩ := List.mem_flatten.mp hr
      obtain ⟨p, hp, hpe⟩ := List.mem_map.mp hblk
      subst hpe
      obtain ⟨su, _, heq⟩ := List.mem_map.mp hfb
      exact ⟨p.1, su, Or.inl ⟨List.mem_map.mpr ⟨p, hp, rfl⟩, heq.symm⟩⟩
    · obtain ⟨blk, hblk, hfb⟩ := List.mem_flatten.mp hi
      obtain ⟨p, hp, hpe⟩ := List.mem_map.mp hblk
      subst hpe
      obtain ⟨su, _, heq⟩ := List.mem_map.mp hfb
      exact ⟨p.1, su, Or.inr ⟨List.mem_map.mpr ⟨p, hp, rfl⟩, heq.symm⟩⟩
  · rw [if_neg hflag] at hf
    cases hf

/-- Claim C9: an image whose inspection fails on both attempts never becomes
a key of either image map; consequently every digest-pinning finding and
every coverage finding arises from some other reference (a key of one of the
maps, necessarily different from the failed image). -/
theorem C9_failed_image (insp : Inspector) (engine image e0 e1 : String) (c : Column)
    (h0 : insp image engine 0 = Except.error e0)
    (h1 : insp image engine 1 = Except.error e1) :
    image ∉ ((processBundle insp engine c).1.InstallImages.map Prod.fst)
    ∧ image ∉ ((processBundle insp engine c).1.RelateImages.map Prod.fst)
    ∧ (∀ f ∈ shaFindings (processBundle insp engine c).1,
        ∃ img, img ≠ image
          ∧ ((img ∈ (processBundle insp engine c).1.RelateImages.map Prod.fst
                ∧ f = shaRelMsg (bundleName (processBundle insp engine c).1) img)
            ∨ (img ∈ (processBundle insp engine c).1.InstallImages.map Prod.fst
                ∧ f = shaInstMsg (bundleName (processBundle insp engine c).1) img)))
    ∧ (∀ f ∈ covFindings (processBundle insp engine c).1,
        ∃ img su, img ≠ image
          ∧ ((img ∈ (processBundle insp engine c).1.RelateImages.map Prod.fst
                ∧ f = covRelMsg (bundleName (processBundle insp engine c).1) img su)
            ∨ (img ∈ (processBundle insp engine c).1.InstallImages.map Prod.fst
                ∧ f = covInstMsg (bundleName (processBundle insp engine c).1) img su))) := by
  have hfail : (inspectTwice insp image engine).1 = Except.error e1 := by
    rw [inspectTwice_of_fails h0 h1]
  have hInst : image ∉ ((processBundle insp engine c).1.InstallImages.map Prod.fst) := by
    rw [processBundle_fst, (validate_keeps _).2.2.2.1, extract_InstallImages]
    exact scanImages_fail_not_key insp engine image hfail _
  have hRel : image ∉ ((processBundle insp engine c).1.RelateImages.map Prod.fst) := by
    rw [processBundle_fst, (validate_keeps _).2.2.1, extract_RelateImages]
    exact scanImages_fail_not_key insp engine image hfail _
  refine ⟨hInst, hRel, ?_, ?_⟩
  · intro f hf
    obtain ⟨img, hcase⟩ := shaFindings_shape _ f hf
    refine ⟨img, ?_, hcase⟩
    rcases hcase with ⟨hm, _⟩ | ⟨hm, _⟩
    · exact fun he => hRel (he ▸ hm)
    · exact fun he => hInst (he ▸ hm)
  · intro f hf
    obtain ⟨img, su, hcase⟩ := covFindings_shape _ f hf
    refine ⟨img, su, ?_, hcase⟩
    rcases hcase with ⟨hm, _⟩ | ⟨hm, _⟩
    · exact fun he => hRel (he ▸ hm)
    · exact fun he => hInst (he ▸ hm)

/-- Witness for C9: the bundle whose sole (install and related) image fails
both attempts has that image in neither map. -/
theorem C9_failed_image_witness :
    "img" ∉ ((processBundle failInsp "docker" colBothMaps).1.InstallImages.map Prod.fst)
    ∧ "img" ∉ ((processBundle failInsp "docker" colBothMaps).1.RelateImages.map Prod.fst) := by
  have h := C9_failed_image failInsp "docker" "img" "boom" "boom" colBothMaps rfl rfl
  exact ⟨h.1, h.2.1⟩

/-- Claim C5, counterexample to the claim as stated: "img" lacks "@sha256"
and is a key of BOTH image maps of a bundle with multi-arch support; the
digest-pinning check produces two findings for it (one per map role), not
exactly one per reference. -/
theorem C5_cex :
    (processBundle amdInsp "docker" colBothMaps).1.HasMultArchSupport = true
    ∧ "img" ∈ (processBundle amdInsp "docker" colBothMaps).1.RelateImages.map Prod.fst
    ∧ "img" ∈ (processBundle amdInsp "docker" colBothMaps).1.InstallImages.map Prod.fst
    ∧ strContains "img" "@sha256" = false
    ∧ (shaFindings (processBundle amdInsp "docker" colBothMaps).1).countP
        (fun f => f == shaRelMsg "b" "img" || f == shaInstMsg "b" "img") = 2 := by
  refine ⟨by decide, by decide, by decide, by decide, by decide⟩

/-- Claim C5 (amended): with multi-arch support, the digest-pinning check
emits, per map separately, exactly one finding for every key lacking
"@sha256": one related-image finding per such related key and one
install-image finding per such install key.  A reference present in both maps
therefore receives two findings, one per role. -/
theorem C5_amended (insp : Inspector) (engine : String) (c : Column)
    (mb : MultiArchBundle) (hmb : mb = (processBundle insp engine c).1)
    (hflag : mb.HasMultArchSupport = true) :
    shaFindings mb = shaRelFindings mb ++ shaInstFindings mb
    ∧ (∀ img, img ∈ mb.RelateImages.map Prod.fst → strContains img "@sha256" = false →
        (shaRelFindings mb).count (shaRelMsg (bundleName mb) img) = 1)
    ∧ (∀ img, img ∈ mb.InstallImages.map Prod.fst → strContains img "@sha256" = false →
        (shaInstFindings mb).count (shaInstMsg (bundleName mb) img) = 1) := by
  have hrelkeys : (mb.RelateImages.map Prod.fst).Nodup := by
    rw [hmb]; exact processBundle_relKeys_nodup insp engine c
  have hinstkeys : (mb.InstallImages.map Prod.fst).Nodup := by
    rw [hmb]; exact processBundle_instKeys_nodup insp engine c
  refine ⟨?_, ?_, ?_⟩
  · unfold shaFindings
    rw [if_pos hflag]
  · intro img hmem hsha
    unfold shaRelFindings
    rw [List.count_map_of_injective _ _ (shaRelMsg_inj (bundleName mb))]
    refine List.count_eq_one_of_mem (List.Nodup.filter _ hrelkeys) ?_
    refine List.mem_filter.mpr ⟨hmem, ?_⟩
    rw [hsha]
    rfl
  · intro img hmem hsha
    unfold shaInstFindings
    rw [List.count_map_of_injective _ _ (shaInstMsg_inj (bundleName mb))]
    refine List.count_eq_one_of_mem (List.Nodup.filter _ hinstkeys) ?_
    refine List.mem_filter.mpr ⟨hmem, ?_⟩
    rw [hsha]
    rfl

/-- Witness for C5: both counts are 1 for the shared unpinned image "img". -/
theorem C5_amended_witness :
    (shaRelFindings (processBundle amdInsp "docker" colBothMaps).1).count
      (shaRelMsg (bundleName (processBundle amdInsp "docker" colBothMaps).1) "img") = 1
    ∧ (shaInstFindings (processBundle amdInsp "docker" colBothMaps).1).count
      (shaInstMsg (bundleName (processBundle amdInsp "docker" colBothMaps).1) "img") = 1 := by
  have h := C5_amended amdInsp "docker" colBothMaps
    (processBundle amdInsp "docker" colBothMaps).1 rfl (by decide)
  exact ⟨h.2.1 "img" (by decide) (by decide), h.2.2 "img" (by decide) (by decide)⟩

/-- Claim C6: with multi-arch support the coverage check is a full
cross-product.  Its output is exactly the related-map blocks followed by the
install-map blocks; each map entry contributes one block holding exactly one
finding per supported token matched by none of that image's platform strings
(and none for a matched token), so an image missing two of three supported
architectures contributes two findings. -/
theorem C6_coverage (insp : Inspector) (engine : String) (c : Column)
    (mb : MultiArchBundle) (hmb : mb = (processBundle insp engine c).1)
    (hflag : mb.HasMultArchSupport = true) :
    covFindings mb = covRelFindings mb ++ covInstFindings mb
    ∧ covRelFindings mb = (mb.RelateImages.map fun p =>
        (missingTokens mb.Supported p.2).map (covRelMsg (bundleName mb) p.1)).flatten
    ∧ covInstFindings mb = (mb.InstallImages.map fun p =>
        (missingTokens mb.Supported p.2).map (covInstMsg (bundleName mb) p.1)).flatten
    ∧ (∀ img arc, (img, arc) ∈ mb.RelateImages →
        (∃ l1 l2, covRelFindings mb =
            l1 ++ (missingTokens mb.Supported arc).map (covRelMsg (bundleName mb) img)
               ++ l2)
        ∧ ∀ su ∈ mb.Supported,
            ((missingTokens mb.Supported arc).map (covRelMsg (bundleName mb) img)).count
                (covRelMsg (bundleName mb) img su)
              = if arc.any (fun t => strContains t su) then 0 else 1)
    ∧ (∀ img arc, (img, arc) ∈ mb.InstallImages →
        (∃ l1 l2, covInstFindings mb =
            l1 ++ (missingTokens mb.Supported arc).map (covInstMsg (bundleName mb) img)
               ++ l2)
        ∧ ∀ su ∈ mb.Supported,
            ((missingTokens mb.Supported arc).map (covInstMsg (bundleName mb) img)).count
                (covInstMsg (bundleName mb) img su)
              = if arc.any (fun t => strContains t su) then 0 else 1) := by
  have hnodup : mb.Supported.Nodup := by
    rw [hmb]; exact processBundle_Supported_nodup insp engine c
  have hcount : ∀ (arc : List String) (su : String), su ∈ mb.Supported →
      (missingTokens mb.Supported arc).count su
        = if arc.any (fun t => strContains t su) then 0 else 1 := by
    intro arc su hsu
    unfold missingTokens
    cases harc : arc.any (fun t => strContains t su) with
    | true =>
      rw [if_pos rfl]
      refine List.count_eq_zero.mpr fun hmem => ?_
      have h2 := (List.mem_filter.mp hmem).2
      rw [harc] at h2
      simp at h2
    | false =>
      rw [if_neg Bool.false_ne_true]
      refine List.count_eq_one_of_mem (List.Nodup.filter _ hnodup) ?_
      refine List.mem_filter.mpr ⟨hsu, ?_⟩
      rw [harc]
      rfl
  refine ⟨?_, rfl, rfl, ?_, ?_⟩
  · unfold covFindings
    rw [if_pos hflag]
  · intro img arc hmem
    constructor
    · obtain ⟨s, w, hsplit⟩ := List.append_of_mem hmem
      refine ⟨(s.map fun p =>
          (missingTokens mb.Supported p.2).map (covRelMsg (bundleName mb) p.1)).flatten,
        (w.map fun p =>
          (missingTokens mb.Supported p.2).map (covRelMsg (bundleName mb) p.1)).flatten, ?_⟩
      unfold covRelFindings
      rw [hsplit]
      simp [List.map_append, List.flatten_append, List.append_assoc]
    · intro su hsu
      rw [List.count_map_of_injective _ _ (covRelMsg_inj (bundleName mb) img)]
      exact hcount arc su hsu
  · intro img arc hmem
    constructor
    · obtain ⟨s, w, hsplit⟩ := List.append_of_mem hmem
      refine ⟨(s.map fun p =>
          (missingTokens mb.Supported p.2).map (covInstMsg (bundleName mb) p.1)).flatten,
        (w.map fun p =>
          (missingTokens mb.Supported p.2).map (covInstMsg (bundleName mb) p.1)).flatten, ?_⟩
      unfold covInstFindings
      rw [hsplit]
      simp [List.map_append, List.flatten_append, List.append_assoc]
    · intro su hsu
      rw [List.count_map_of_injective _ _ (covInstMsg_inj (bundleName mb) img)]
      exact hcount arc su hsu

/-- Witness for C6: the related image "img" of the two-label bundle reports
only linux/amd64, so its block counts one finding for the missing "s390x" and
none for the covered "amd64". -/
theorem C6_coverage_witness :
    ((missingTokens (processBundle amdInsp "docker" colBothMaps).1.Supported
        ["linux.amd64"]).map
      (covRelMsg (bundleName (processBundle amdInsp "docker" colBothMaps).1) "img")).count
      (covRelMsg (bundleName (processBundle amdInsp "docker" colBothMaps).1) "img" "s390x")
      = 1
    ∧ ((missingTokens (processBundle amdInsp "docker" colBothMaps).1.Supported
        ["linux.amd64"]).map
      (covRelMsg (bundleName (processBundle amdInsp "docker" colBothMaps).1) "img")).count
      (covRelMsg (bundleName (processBundle amdInsp "docker" colBothMaps).1) "img" "amd64")
      = 0 := by
  have h := C6_coverage amdInsp "docker" colBothMaps
    (processBundle amdInsp "docker" colBothMaps).1 rfl (by decide)
  have h1 := (h.2.2.2.1 "img" ["linux.amd64"] (by decide)).2 "s390x" (by decide)
  have h2 := (h.2.2.2.1 "img" ["linux.amd64"] (by decide)).2 "amd64" (by decide)
  constructor
  · rw [h1]
    decide
  · rw [h2]
    decide

theorem passesFilter_pos {filt : String} {c : Column}
    (h : passesFilter filt c = true) (hlen : filt.length > 0) :
    strContains c.PackageName filt = true := by
  unfold passesFilter at h
  simp [hlen] at h
  exact h

theorem mapHeadBundles_entries (cols : List Column) :
    ∀ p bs, (p, bs) ∈ mapHeadBundlesPerPackageWith cols →
      ∀ b ∈ bs, b.IsHeadOfChannel = true ∧ b.PackageName = p := by
  unfold mapHeadBundlesPerPackageWith
  have main : ∀ (cs : List Column) (m : List (String × List Column)),
      (∀ p bs, (p, bs) ∈ m → ∀ b ∈ bs, b.IsHeadOfChannel = true ∧ b.PackageName = p) →
      ∀ p bs, (p, bs) ∈ cs.foldl
          (fun m c => if c.IsHeadOfChannel then mapAppend m c.PackageName c else m) m →
        ∀ b ∈ bs, b.IsHeadOfChannel = true ∧ b.PackageName = p := by
    intro cs
    induction cs with
    | nil => intro m hm; exact hm
    | cons c rest ih =>
      intro m hm
      simp only [List.foldl_cons]
      by_cases hc : c.IsHeadOfChannel
      · rw [if_pos hc]
        exact ih _ (mapAppend_entries hm ⟨hc, rfl⟩)
      · rw [if_neg hc]
        exact ih _ hm
  exact main cols [] (by simp)

/-- Claim C8: the report contains only head-of-channel bundles, grouped under
their own package name; with a non-empty filter every reported bundle's
package name contains the filter substring; and the complete inspector-call
trace is exactly the concatenation of the traces of the retained (grouped,
filter-passing) bundles, so filtered-out bundles incur no inspector call. -/
theorem C8_aggregator (insp : Inspector) (engine filt : String) (cols : List Column) :
    (∀ pkgName mbs, (pkgName, mbs) ∈ (NewMultiArchReport insp engine filt cols).1 →
      ∀ mb ∈ mbs, ∃ col : Column,
        col.IsHeadOfChannel = true
        ∧ col.PackageName = pkgName
        ∧ (filt.length > 0 → strContains col.PackageName filt = true)
        ∧ mb = (processBundle insp engine col).1)
    ∧ (NewMultiArchReport insp engine filt cols).2 =
        ((mapHeadBundlesPerPackageWith cols).map fun pr =>
          ((pr.2.filter (passesFilter filt)).map
            fun c2 => (processBundle insp engine c2).2).flatten).flatten := by
  have hinner : ∀ (bs : List Column) (pkgName : String)
      (acc : List (String × List MultiArchBundle) × List Call),
      (∀ p mbs, (p, mbs) ∈ acc.1 → ∀ mb ∈ mbs, ∃ col : Column,
        col.IsHeadOfChannel = true ∧ col.PackageName = p
        ∧ (filt.length > 0 → strContains col.PackageName filt = true)
        ∧ mb = (processBundle insp engine col).1) →
      (∀ b ∈ bs, b.IsHeadOfChannel = true ∧ b.PackageName = pkgName) →
      ∀ p mbs, (p, mbs) ∈ (bs.foldl (bundleStep insp engine filt pkgName) acc).1 →
        ∀ mb ∈ mbs, ∃ col : Column,
          col.IsHeadOfChannel = true ∧ col.PackageName = p
          ∧ (filt.length > 0 → strContains col.PackageName filt = true)
          ∧ mb = (processBundle insp engine col).1 := by
    intro bs
    induction bs with
    | nil => intro pkgName acc hacc _; exact hacc
    | cons b rest ih =>
      intro pkgName acc hacc hbs
      simp only [List.foldl_cons]
      refine ih pkgName _ ?_ fun b2 hb2 => hbs b2 (List.mem_cons_of_mem _ hb2)
      unfold bundleStep
      by_cases hp : passesFilter filt b
      · rw [if_pos hp]
        exact mapAppend_entries hacc
          ⟨b, (hbs b (List.mem_cons_self _ _)).1, (hbs b (List.mem_cons_self _ _)).2,
            fun hlen => passesFilter_pos hp hlen, rfl⟩
      · rw [if_neg hp]
        exact hacc
  have houter : ∀ (prs : List (String × List Column))
      (acc : List (String × List MultiArchBundle) × List Call),
      (∀ p mbs, (p, mbs) ∈ acc.1 → ∀ mb ∈ mbs, ∃ col : Column,
        col.IsHeadOfChannel = true ∧ col.PackageName = p
        ∧ (filt.length > 0 → strContains col.PackageName filt = true)
        ∧ mb = (processBundle insp engine col).1) →
      (∀ pr ∈ prs, ∀ b ∈ pr.2, b.IsHeadOfChannel = true ∧ b.PackageName = pr.1) →
      ∀ p mbs, (p, mbs) ∈ (prs.foldl (pkgStep insp engine filt) acc).1 →
        ∀ mb ∈ mbs, ∃ col : Column,
          col.IsHeadOfChannel = true ∧ col.PackageName = p
          ∧ (filt.length > 0 → strContains col.PackageName filt = true)
          ∧ mb = (processBundle insp engine col).1 := by
    intro prs
    induction prs with
    | nil => intro acc hacc _; exact hacc
    | cons pr rest ih =>
      intro acc hacc hprs
      simp only [List.foldl_cons]
      refine ih _ ?_ fun pr2 h2 => hprs pr2 (List.mem_cons_of_mem _ h2)
      unfold pkgStep
      exact hinner pr.2 pr.1 acc hacc fun b hb => hprs pr (List.mem_cons_self _ _) b hb
  have hinnerT : ∀ (bs : List Column) (pkgName : String)
      (acc : List (String × List MultiArchBundle) × List Call),
      (bs.foldl (bundleStep insp engine filt pkgName) acc).2 =
        acc.2 ++ ((bs.filter (passesFilter filt)).map
          fun c2 => (processBundle insp engine c2).2).flatten := by
    intro bs
    induction bs with
    | nil => intro pkgName acc; simp
    | cons b rest ih =>
      intro pkgName acc
      simp only [List.foldl_cons]
      rw [ih]
      unfold bundleStep
      by_cases hp : passesFilter filt b
      · rw [if_pos hp]
        simp [List.filter_cons, hp, List.append_assoc]
      · rw [if_neg hp]
        simp [List.filter_cons, hp]
  have houterT : ∀ (prs : List (String × List Column))
      (acc : List (String × List MultiArchBundle) × List Call),
      (prs.foldl (pkgStep insp engine filt) acc).2 =
        acc.2 ++ (prs.map fun pr => ((pr.2.filter (passesFilter filt)).map
          fun c2 => (processBundle insp engine c2).2).flatten).flatten := by
    intro prs
    induction prs with
    | nil => intro acc; simp
    | cons pr rest ih =>
      intro acc
      simp only [List.foldl_cons, List.map_cons, List.flatten_cons]
      rw [ih]
      unfold pkgStep
      rw [hinnerT, List.append_assoc]
  constructor
  · intro pkgName mbs hmem mb hmb
    refine houter (mapHeadBundlesPerPackageWith cols) ([], []) (by simp) ?_
      pkgName mbs hmem mb hmb
    intro pr hpr b hb
    exact mapHeadBundles_entries cols pr.1 pr.2 hpr b hb
  · unfold NewMultiArchReport
    rw [houterT]
    rfl

/-- Witness for C8: the single head bundle of package "p" passes the filter
"p" and is reported under its package, produced by the pipeline. -/
theorem C8_aggregator_witness :
    ∃ col : Column,
      col.IsHeadOfChannel = true
      ∧ col.PackageName = "p"
      ∧ ("p".length > 0 → strContains col.PackageName "p" = true)
      ∧ (processBundle amdInsp "docker" colTwoLabels).1 =
          (processBundle amdInsp "docker" col).1 :=
  (C8_aggregator amdInsp "docker" "p" [colTwoLabels]).1 "p"
    [(processBundle amdInsp "docker" colTwoLabels).1] (by decide)
    (processBundle amdInsp "docker" colTwoLabels).1 (by decide)

end MultiArchAudit
